import Mathlib

/-!
Verification development for nats-kv-syncd, a TypeScript agent that keeps
NATS Key/Value buckets convergent with a Last-Writer-Wins CRDT, tombstones
and a Lamport logical clock.

The definitions below shallowly embed the repository code:
  - the lightweight KV facade emulated on a JetStream stream
    (src/nats/connection.ts),
  - the local KV watcher with its seeding and local-write helpers
    (src/nats/kvWatcher.ts),
  - the periodic anti-entropy reconciler (src/nats/reconcile.ts).
Payload bytes are modelled as `String`, Lamport timestamps and stream
sequence numbers as `Nat`, and message headers as `Option` fields.
Components whose source file is not part of the repository snapshot
(src/crdt/lww.ts, src/crdt/clock.ts, src/crdt/metadataStore.ts) are
modelled from the specification and marked as such in their doc comments.
-/

namespace NatsKvSyncd

/-- Version tuple (ts, nodeId, tombstone) tracked per (bucket, key);
data model of src/crdt/lww.ts as described by the README and spec §3. -/
structure Version where
  ts : Nat
  nodeId : String
  tombstone : Bool
deriving DecidableEq, Repr

/-- Operation shape from src/crdt/lww.ts: op kind, bucket, key, optional
value (absent for deletes), Lamport timestamp and issuing nodeId. -/
inductive OpType where
  | put
  | delete
deriving DecidableEq, Repr

structure Operation where
  op : OpType
  bucket : String
  key : String
  value : Option String
  ts : Nat
  nodeId : String
deriving DecidableEq, Repr

/-- Lexicographic comparison of character lists, the semantics of the JS
relational operators on strings used by the nodeId tie-break: compare
position by position, a strict prefix is smaller. -/
def strLtb : List Char → List Char → Bool
  | [], [] => false
  | [], _ :: _ => true
  | _ :: _, [] => false
  | a :: as, b :: bs =>
    if a < b then true
    else if b < a then false
    else strLtb as bs

/-- JS string comparison a less-than b on the two character sequences. -/
def strLt (a b : String) : Bool :=
  strLtb a.data b.data

/-- Modelled from the spec: `wins` lives in src/crdt/lww.ts, which is not in
the snapshot (only its callers and the README statement of the rule are).
Spec §4.2: a higher timestamp wins outright; on equal timestamps the
lexicographically greater nodeId wins; equal (timestamp, nodeId) is not a
win. -/
def wins (candidate incumbent : Version) : Bool :=
  if incumbent.ts < candidate.ts then true
  else if candidate.ts == incumbent.ts && strLt incumbent.nodeId candidate.nodeId then true
  else false

/-- Modelled from the spec: `versionFromOp` lives in src/crdt/lww.ts, not in
the snapshot. Spec §4.2: projects (timestamp, nodeId, tombstone) where
tombstone holds iff the operation is a delete. -/
def versionFromOp (o : Operation) : Version :=
  { ts := o.ts, nodeId := o.nodeId, tombstone := o.op == OpType.delete }

/-- Modelled from the spec: the Lamport clock lives in src/crdt/clock.ts,
not in the snapshot. Spec §4.1: tick atomically increments the counter and
returns the new value. The clock is a plain counter here; the pair is
(returned timestamp, new counter). -/
def clockTick (c : Nat) : Nat × Nat := (c + 1, c + 1)

/-- Modelled from the spec: spec §4.1, observe advances the counter to
max(counter, t) without emitting a new event. -/
def clockObserve (c t : Nat) : Nat := max c t

/-- Modelled from the spec: InMemoryMetadataStore lives in
src/crdt/metadataStore.ts, not in the snapshot. README: it tracks the
winning version per (bucket, key); kvWatcher.ts calls set(bucket, key,
version) and the applier reads it back. Embedded as an association list. -/
abbrev MetadataStore := List ((String × String) × Version)

def mdSet (m : MetadataStore) (bucket key : String) (v : Version) : MetadataStore :=
  ((bucket, key), v) :: m.filter (fun e => e.1 != (bucket, key))

def mdGet (m : MetadataStore) (bucket key : String) : Option Version :=
  (m.find? (fun e => e.1 == (bucket, key))).map (fun e => e.2)

/-! KV facade emulated on a JetStream stream (src/nats/connection.ts).
The stream named KV_bucket stores messages on subjects $KV.bucket.key; put
and delete publish messages, get fetches the last message for the subject.
Messages are kept here as an append-only list; the global sequence number
of a message is its 1-based position, matching JetStream sequence
assignment (the per-subject retention limit of the source drops superseded
messages but never reuses sequence numbers or removes the last message of
a subject, so get, keys and sequence numbers behave identically). -/

/-- A stored stream message: subject, payload, and the three headers the
code uses (KV-Operation, KV-Origin, KV-Lamport), each absent or present. -/
structure StoredMsg where
  subject : String
  data : String
  kvOperation : Option String := none
  kvOrigin : Option String := none
  kvLamport : Option Nat := none
deriving DecidableEq, Repr

/-- The emulated KV stream for one bucket. -/
structure KvStream where
  msgs : List StoredMsg
deriving DecidableEq, Repr

/-- Write options of the facade (connection.ts KvWriteOptions): an optional
origin node id and an optional Lamport timestamp, emitted as headers. -/
structure KvWriteOptions where
  origin : Option String := none
  timestamp : Option Nat := none
deriving DecidableEq, Repr

/-- KV entry returned by the facade get (connection.ts KvEntry). -/
structure KvEntry where
  value : Option String
  isTombstone : Bool
  origin : Option String
  ts : Option Nat
  revision : Option Nat
deriving DecidableEq, Repr

def subjectFor (bucket key : String) : String :=
  "$KV." ++ bucket ++ "." ++ key

/-- connection.ts put: publish the value on $KV.bucket.key with KV-Origin
and KV-Lamport headers when the options carry them. -/
def kvPut (s : KvStream) (bucket key value : String) (opts : KvWriteOptions) : KvStream :=
  { msgs := s.msgs ++ [{ subject := subjectFor bucket key, data := value,
                         kvOrigin := opts.origin, kvLamport := opts.timestamp }] }

/-- connection.ts delete: publish an empty payload with header
KV-Operation set to DEL (a tombstone), plus the optional provenance
headers. -/
def kvDelete (s : KvStream) (bucket key : String) (opts : KvWriteOptions) : KvStream :=
  { msgs := s.msgs ++ [{ subject := subjectFor bucket key, data := "",
                         kvOperation := some "DEL",
                         kvOrigin := opts.origin, kvLamport := opts.timestamp }] }

/-- Last message for a subject together with its sequence number, where
seq0 is the sequence number of the head of the list; embeds the
last_by_subj lookup of jsm.streams.getMessage. -/
def lastBySubjFrom (subj : String) (seq0 : Nat) : List StoredMsg → Option (Nat × StoredMsg)
  | [] => none
  | m :: rest =>
    match lastBySubjFrom subj (seq0 + 1) rest with
    | some r => some r
    | none => if m.subject == subj then some (seq0, m) else none

def lastBySubj (s : KvStream) (subj : String) : Option (Nat × StoredMsg) :=
  lastBySubjFrom subj 1 s.msgs

/-- Outcome of the underlying stream lookup inside get: either the last
message for the subject with its sequence number, or a failure. The source
wraps the lookup in try/catch; a failure is any thrown error, whether
no message exists for the subject or the storage call failed transiently. -/
inductive LookupResult where
  | ok : Nat → StoredMsg → LookupResult
  | err : String → LookupResult
deriving DecidableEq, Repr

/-- The entry connection.ts get builds from a fetched message: tombstone
iff header KV-Operation is DEL, value null for tombstones, origin from
KV-Origin, ts from KV-Lamport when present otherwise the stream sequence
number, revision the sequence number. -/
def entryOfMsg (seq : Nat) (m : StoredMsg) : KvEntry :=
  let isTomb := m.kvOperation == some "DEL"
  { value := if isTomb then none else some m.data,
    isTombstone := isTomb,
    origin := m.kvOrigin,
    ts := some (m.kvLamport.getD seq),
    revision := some seq }

/-- connection.ts get, split at the try/catch: any lookup failure is
caught and turned into null. -/
def getFromLookup : LookupResult → Option KvEntry
  | LookupResult.ok seq m => some (entryOfMsg seq m)
  | LookupResult.err _ => none

def kvGet (s : KvStream) (bucket key : String) : Option KvEntry :=
  getFromLookup (match lastBySubj s (subjectFor bucket key) with
    | some (seq, m) => LookupResult.ok seq m
    | none => LookupResult.err "no message for subject")

/-- Structural prefix test on character lists, the semantics of the JS
startsWith used when collecting keys. -/
def strIsPrefixOfb : List Char → List Char → Bool
  | [], _ => true
  | _ :: _, [] => false
  | a :: as, b :: bs => if a = b then strIsPrefixOfb as bs else false

def strStartsWith (s p : String) : Bool :=
  strIsPrefixOfb p.data s.data

/-- connection.ts keys: scan the stream and collect the key part of every
subject under the bucket, without duplicates. -/
def kvKeys (s : KvStream) (bucket : String) : List String :=
  let p := "$KV." ++ bucket ++ "."
  ((s.msgs.filter (fun m => strStartsWith m.subject p)).map
    (fun m => m.subject.drop p.length)).eraseDups

/-! Local watcher (src/nats/kvWatcher.ts): seeds metadata from the current
KV contents, then classifies each observed stream message by the presence
of the KV-Origin header, and exposes the localPut and localDelete
helpers. The agent-local mutable state is the logical clock counter and
the metadata store. -/

structure WatcherCtx where
  bucket : String
  nodeId : String
deriving DecidableEq, Repr

structure AgentState where
  clock : Nat
  md : MetadataStore
deriving DecidableEq, Repr

def keyOfSubject (bucket subj : String) : String :=
  subj.drop ("$KV." ++ bucket ++ ".").length

/-- kvWatcher.ts watch-loop body (lines 43-74) for one observed message
with its stream sequence number. Returns the updated agent state and the
operation handed to the broadcaster, if any. A message whose KV-Origin
header is present (and nonempty, per JS truthiness) only advances the
clock and overwrites the metadata entry; an origin-less message mints a
fresh Operation stamped with clock.tick() and this nodeId, records its
version, and is broadcast. -/
def handleKvEvent (ctx : WatcherCtx) (st : AgentState) (seq : Nat) (m : StoredMsg) :
    AgentState × Option Operation :=
  let origin := m.kvOrigin.getD ""
  if origin != "" then
    let isDelete := m.kvOperation == some "DEL"
    let ts := m.kvLamport.getD seq
    let clock := clockObserve st.clock ts
    let key := keyOfSubject ctx.bucket m.subject
    ({ clock := clock,
       md := mdSet st.md ctx.bucket key { ts := ts, nodeId := origin, tombstone := isDelete } },
     none)
  else
    let key := keyOfSubject ctx.bucket m.subject
    let isDelete := m.kvOperation == some "DEL"
    let t := (clockTick st.clock).1
    let clock := (clockTick st.clock).2
    let op : Operation :=
      { op := if isDelete then OpType.delete else OpType.put,
        bucket := ctx.bucket, key := key,
        value := if isDelete then none else some m.data,
        ts := t, nodeId := ctx.nodeId }
    ({ clock := clock, md := mdSet st.md ctx.bucket key (versionFromOp op) },
     some op)

/-- kvWatcher.ts localPut helper (lines 78-94): mint an Operation with
clock.tick() and this nodeId, write through the facade with matching
origin and timestamp options, record the version, broadcast the
operation. Result: updated agent state, updated KV stream, broadcast
operation. -/
def localPut (ctx : WatcherCtx) (st : AgentState) (kv : KvStream) (key value : String) :
    AgentState × KvStream × Operation :=
  let t := (clockTick st.clock).1
  let clock := (clockTick st.clock).2
  let op : Operation :=
    { op := OpType.put, bucket := ctx.bucket, key := key,
      value := some value, ts := t, nodeId := ctx.nodeId }
  let kv := kvPut kv ctx.bucket key value { origin := some ctx.nodeId, timestamp := some t }
  ({ clock := clock, md := mdSet st.md ctx.bucket key (versionFromOp op) }, kv, op)

/-- kvWatcher.ts localDelete helper (lines 96-108): like localPut but
writes a tombstone through the facade delete. -/
def localDelete (ctx : WatcherCtx) (st : AgentState) (kv : KvStream) (key : String) :
    AgentState × KvStream × Operation :=
  let t := (clockTick st.clock).1
  let clock := (clockTick st.clock).2
  let op : Operation :=
    { op := OpType.delete, bucket := ctx.bucket, key := key,
      value := none, ts := t, nodeId := ctx.nodeId }
  let kv := kvDelete kv ctx.bucket key { origin := some ctx.nodeId, timestamp := some t }
  ({ clock := clock, md := mdSet st.md ctx.bucket key (versionFromOp op) }, kv, op)

/-- kvWatcher.ts seedMetadataFromKv loop body (lines 128-141) applied to
one entry already fetched for a key: take the entry timestamp if present,
otherwise a freshly ticked clock value; observe it; record (ts, origin or
unknown, tombstone) in the metadata store. -/
def seedEntry (ctx : WatcherCtx) (st : AgentState) (key : String) (entry : KvEntry) :
    AgentState :=
  let tsClock : Nat × Nat :=
    match entry.ts with
    | some t => (t, st.clock)
    | none => clockTick st.clock
  let ts := tsClock.1
  let clock := clockObserve tsClock.2 ts
  let nodeId := entry.origin.getD "unknown"
  { clock := clock,
    md := mdSet st.md ctx.bucket key { ts := ts, nodeId := nodeId, tombstone := entry.isTombstone } }

/-- One iteration of the seeding loop: fetch the key and seed from the
entry when present. -/
def seedStep (ctx : WatcherCtx) (kv : KvStream) (st : AgentState) (key : String) : AgentState :=
  match kvGet kv ctx.bucket key with
  | none => st
  | some entry => seedEntry ctx st key entry

/-- kvWatcher.ts seedMetadataFromKv (lines 126-145): seed every existing
key of the bucket. -/
def seedMetadataFromKv (ctx : WatcherCtx) (st : AgentState) (kv : KvStream) : AgentState :=
  (kvKeys kv ctx.bucket).foldl (seedStep ctx kv) st

/-- Modelled from the spec: the win test of the OperationApplier, which
lives in src/nats/replication.ts, not in the snapshot. Spec §4.5 step 2:
candidate is versionFromOp of the inbound operation, incumbent is the
stored Version for (bucket, key), an absent incumbent ranking lowest. -/
def opWinsStored (md : MetadataStore) (op : Operation) : Bool :=
  match mdGet md op.bucket op.key with
  | none => true
  | some incumbent => wins (versionFromOp op) incumbent

/-- Modelled from the spec: the OperationApplier lives in
src/nats/replication.ts, not in the snapshot (the README: it observes
incoming timestamps and applies only operations that win per LWW, deletes
as tombstones). Spec §4.5: observe op.timestamp on the clock; if the
candidate Version wins over the stored incumbent, apply the operation to
the facade as a put or delete stamped with provenance (op.nodeId,
op.timestamp) and update the version store to the candidate; otherwise
discard silently. -/
def applyRemoteOp (st : AgentState) (kv : KvStream) (op : Operation) :
    AgentState × KvStream :=
  let clock := clockObserve st.clock op.ts
  if opWinsStored st.md op then
    let kv2 :=
      match op.op with
      | OpType.put =>
        kvPut kv op.bucket op.key (op.value.getD "")
          { origin := some op.nodeId, timestamp := some op.ts }
      | OpType.delete =>
        kvDelete kv op.bucket op.key { origin := some op.nodeId, timestamp := some op.ts }
    ({ clock := clock, md := mdSet st.md op.bucket op.key (versionFromOp op) }, kv2)
  else
    ({ clock := clock, md := st.md }, kv)

/-! Periodic reconciler (src/nats/reconcile.ts): per key, fetch both
sides through the facade, build pseudo-operations, decide with wins, and
write the winner to both sides. -/

structure ReconcileCfg where
  bucket : String
  nodeId : String
deriving DecidableEq, Repr

/-- reconcile.ts passes the fetched entry itself to the string codec
(sc.decode(localVal)); the decoded payload is the entry value bytes,
empty for a tombstone whose value field is null. -/
def decodeEntry (e : KvEntry) : String :=
  e.value.getD ""

/-- The pseudo-operation reconcileKey builds for one side (reconcile.ts
lines 78-98): a put carrying the decoded current value, stamped with the
single timestamp now minted at the start of the key pass (nowTs() in the
source; nowTs lives in src/crdt/lww.ts, not in the snapshot, so the fresh
stamp is a parameter here) and with the agent nodeId suffixed to tell the
two sides apart. -/
def pseudoOp (cfg : ReconcileCfg) (key : String) (now : Nat) (sideTag : String)
    (entry : KvEntry) : Operation :=
  { op := OpType.put, bucket := cfg.bucket, key := key,
    value := some (decodeEntry entry), ts := now, nodeId := cfg.nodeId ++ sideTag }

/-- The two Versions reconcileKey actually compares in the both-sides case
(reconcile.ts lines 117-118): versionFromOp of the two pseudo-operations. -/
def comparedVersions (cfg : ReconcileCfg) (key : String) (now : Nat)
    (localEntry peerEntry : KvEntry) : Version × Version :=
  (versionFromOp (pseudoOp cfg key now "-local" localEntry),
   versionFromOp (pseudoOp cfg key now "-peer" peerEntry))

/-- A Version reconstructed from the provenance stored with an entry, as
the spec words it (§4.6 step 3): the persisted timestamp and origin
nodeId with the tombstone flag. This is the spec-side definition the
reconciler claims are compared against; fallback is the nodeId used when
no origin was persisted. -/
def storedVersionOfEntry (e : KvEntry) (fallbackNode : String) : Version :=
  { ts := e.ts.getD 0, nodeId := e.origin.getD fallbackNode, tombstone := e.isTombstone }

/-- reconcile.ts reconcileKey (lines 64-126): fetch the key from both
sides; a side with no entry receives the other side value as a bare put;
when both sides hold entries, the winner of the two pseudo-operations
(same fresh timestamp, tie broken by the -local or -peer nodeId suffix)
is written to both sides as a bare put with no options. Returns the two
updated streams. -/
def reconcileKey (cfg : ReconcileCfg) (key : String) (now : Nat)
    (localKv peerKv : KvStream) : KvStream × KvStream :=
  let localVal := kvGet localKv cfg.bucket key
  let peerVal := kvGet peerKv cfg.bucket key
  match localVal, peerVal with
  | none, none => (localKv, peerKv)
  | some lv, none => (localKv, kvPut peerKv cfg.bucket key (decodeEntry lv) {})
  | none, some pv => (kvPut localKv cfg.bucket key (decodeEntry pv) {}, peerKv)
  | some lv, some pv =>
    let localOp := pseudoOp cfg key now "-local" lv
    let peerOp := pseudoOp cfg key now "-peer" pv
    let remoteWins := wins (versionFromOp peerOp) (versionFromOp localOp)
    let winnerOp := if remoteWins then peerOp else localOp
    let winnerVal := winnerOp.value.getD ""
    (kvPut localKv cfg.bucket key winnerVal {}, kvPut peerKv cfg.bucket key winnerVal {})

/-! Scheduling of reconciliation cycles (reconcile.ts lines 19-26).
startPeriodicReconciliation registers the cycle with setInterval; every
timer fire invokes the async callback, which runs reconcileOnce and
catches errors. The callback holds no busy flag, skip or queue, so under
JS timer semantics a fire that arrives while a previous cycle is still
awaiting always starts another concurrent cycle. The model below tracks
how many cycles are currently running across an interleaving of timer
fires and cycle completions. -/

inductive SchedulerEvent where
  | timerFire
  | cycleEnd
deriving DecidableEq, Repr

/-- Effect of one scheduler event on the number of running cycles: a
timer fire unconditionally starts a cycle (there is no guard in the
source callback); a cycle completion retires one. -/
def schedStep (running : Nat) : SchedulerEvent → Nat
  | SchedulerEvent.timerFire => running + 1
  | SchedulerEvent.cycleEnd => running - 1

def cyclesRunning (events : List SchedulerEvent) : Nat :=
  events.foldl schedStep 0

/-! Helper lemmas shared by several theorems. -/

theorem strLtb_irrefl (l : List Char) : strLtb l l = false := by
  induction l with
  | nil => rfl
  | cons a l ih => simp [strLtb, lt_self_iff_false, ih]

theorem strLtb_asymm (l1 : List Char) :
    ∀ l2 : List Char, strLtb l1 l2 = true → strLtb l2 l1 = false := by
  induction l1 with
  | nil =>
    intro l2 h
    cases l2 with
    | nil => cases h
    | cons b bs => rfl
  | cons a as ih =>
    intro l2 h
    cases l2 with
    | nil => cases h
    | cons b bs =>
      by_cases hab : a < b
      · have hba : ¬ b < a := lt_asymm hab
        simp [strLtb, hab, hba]
      · by_cases hba : b < a
        · simp [strLtb, hab, hba] at h
        · simp only [strLtb, hab, hba, if_false] at h
          simp only [strLtb, hab, hba, if_false]
          exact ih bs h

theorem strLtb_total (l1 : List Char) :
    ∀ l2 : List Char, l1 ≠ l2 → strLtb l1 l2 = true ∨ strLtb l2 l1 = true := by
  induction l1 with
  | nil =>
    intro l2 h
    cases l2 with
    | nil => exact absurd rfl h
    | cons b bs => exact Or.inl rfl
  | cons a as ih =>
    intro l2 h
    cases l2 with
    | nil => exact Or.inr rfl
    | cons b bs =>
      rcases lt_trichotomy a b with hab | heq | hba
      · left; simp [strLtb, hab]
      · subst heq
        have hne : as ≠ bs := fun hh => h (by rw [hh])
        rcases ih bs hne with h1 | h1
        · left; simp [strLtb, lt_self_iff_false, h1]
        · right; simp [strLtb, lt_self_iff_false, h1]
      · right; simp [strLtb, hba]

theorem strLt_irrefl (s : String) : strLt s s = false :=
  strLtb_irrefl s.data

theorem strLt_asymm (a b : String) (h : strLt a b = true) : strLt b a = false :=
  strLtb_asymm a.data b.data h

theorem strLt_total (a b : String) (h : a ≠ b) : strLt a b = true ∨ strLt b a = true :=
  strLtb_total a.data b.data (fun hd => h (by cases a; cases b; simp_all))

theorem wins_iff (c i : Version) :
    wins c i = true ↔ i.ts < c.ts ∨ (c.ts = i.ts ∧ strLt i.nodeId c.nodeId = true) := by
  unfold wins
  split_ifs with h1 h2
  · simp [h1]
  · simp only [Bool.and_eq_true, beq_iff_eq] at h2
    simp [h2.1, h2.2]
  · simp only [Bool.and_eq_true, beq_iff_eq, not_and] at h2
    simp only [not_lt] at h1
    simp only [Bool.false_eq_true, false_iff]
    rintro (h | ⟨hts, hn⟩)
    · omega
    · exact absurd hn (h2 hts)

theorem mdGet_mdSet_self (m : MetadataStore) (bucket key : String) (v : Version) :
    mdGet (mdSet m bucket key v) bucket key = some v := by
  simp [mdGet, mdSet, List.find?]

theorem lastBySubjFrom_append_single (subj : String) (m : StoredMsg) (l : List StoredMsg) :
    ∀ seq0 : Nat,
      lastBySubjFrom subj seq0 (l ++ [m])
        = if m.subject == subj then some (seq0 + l.length, m)
          else lastBySubjFrom subj seq0 l := by
  induction l with
  | nil =>
    intro seq0
    show lastBySubjFrom subj seq0 [m] = _
    unfold lastBySubjFrom
    cases hm : (m.subject == subj) <;> simp [hm, lastBySubjFrom]
  | cons a l ih =>
    intro seq0
    show lastBySubjFrom subj seq0 (a :: (l ++ [m])) = _
    unfold lastBySubjFrom
    rw [ih (seq0 + 1)]
    cases hm : (m.subject == subj)
    · simp only [Bool.false_eq_true, if_false]
    · simp only [if_true, List.length_cons]
      have h : seq0 + 1 + l.length = seq0 + (l.length + 1) := by omega
      rw [h]

theorem lastBySubjFrom_eq_none_of_no_match (subj : String) (l : List StoredMsg)
    (h : l.filter (fun m => m.subject == subj) = []) :
    ∀ seq0 : Nat, lastBySubjFrom subj seq0 l = none := by
  induction l with
  | nil => intro seq0; rfl
  | cons a l ih =>
    intro seq0
    rw [List.filter_cons] at h
    by_cases ha : (a.subject == subj) = true
    · simp [ha] at h
    · simp only [ha, Bool.false_eq_true, if_false] at h
      simp [lastBySubjFrom, ih h, ha]

theorem kvGet_kvPut_self (s : KvStream) (bucket key value : String) (opts : KvWriteOptions) :
    kvGet (kvPut s bucket key value opts) bucket key
      = some { value := some value, isTombstone := false, origin := opts.origin,
               ts := some (opts.timestamp.getD (s.msgs.length + 1)),
               revision := some (s.msgs.length + 1) } := by
  unfold kvGet lastBySubj kvPut
  rw [lastBySubjFrom_append_single]
  simp [getFromLookup, entryOfMsg, Nat.add_comm 1 s.msgs.length]

theorem kvGet_kvDelete_self (s : KvStream) (bucket key : String) (opts : KvWriteOptions) :
    kvGet (kvDelete s bucket key opts) bucket key
      = some { value := none, isTombstone := true, origin := opts.origin,
               ts := some (opts.timestamp.getD (s.msgs.length + 1)),
               revision := some (s.msgs.length + 1) } := by
  unfold kvGet lastBySubj kvDelete
  rw [lastBySubjFrom_append_single]
  simp [getFromLookup, entryOfMsg, Nat.add_comm 1 s.msgs.length]

theorem kvGet_eq_none_of_never_written (s : KvStream) (bucket key : String)
    (h : s.msgs.filter (fun m => m.subject == subjectFor bucket key) = []) :
    kvGet s bucket key = none := by
  unfold kvGet lastBySubj
  rw [lastBySubjFrom_eq_none_of_no_match _ _ h]
  rfl

/-! Claim theorems. -/

/-- C5: wins is a deterministic total order on Versions: a strictly higher
timestamp wins outright; on equal timestamps the lexicographically greater
nodeId wins; when both timestamp and nodeId are equal the candidate does
not win, so re-applying the same Version is a no-op; and for distinct
(timestamp, nodeId) pairs exactly one direction wins. -/
theorem wins_total_order (c i : Version) :
    (i.ts < c.ts → wins c i = true)
    ∧ (c.ts = i.ts → strLt i.nodeId c.nodeId = true → wins c i = true)
    ∧ (c.ts = i.ts → c.nodeId = i.nodeId → wins c i = false)
    ∧ (wins c i = true → wins i c = false)
    ∧ (c.ts ≠ i.ts ∨ c.nodeId ≠ i.nodeId → (wins c i = true ∨ wins i c = true)) := by
  refine ⟨?_, ?_, ?_, ?_, ?_⟩
  · intro h; exact (wins_iff c i).mpr (Or.inl h)
  · intro hts hn; exact (wins_iff c i).mpr (Or.inr ⟨hts, hn⟩)
  · intro hts hn
    cases h : wins c i
    · rfl
    · rcases (wins_iff c i).mp h with h' | ⟨_, h''⟩
      · omega
      · rw [hn] at h''
        rw [strLt_irrefl] at h''
        cases h''
  · intro h
    rcases (wins_iff c i).mp h with h' | ⟨hts, hn⟩
    · cases h2 : wins i c
      · rfl
      · rcases (wins_iff i c).mp h2 with h2' | ⟨hts2, _⟩
        · omega
        · omega
    · cases h2 : wins i c
      · rfl
      · rcases (wins_iff i c).mp h2 with h2' | ⟨_, hn2⟩
        · omega
        · rw [strLt_asymm _ _ hn] at hn2
          cases hn2
  · intro h
    rcases h with h | h
    · rcases Nat.lt_or_ge c.ts i.ts with hlt | hge
      · exact Or.inr ((wins_iff i c).mpr (Or.inl hlt))
      · exact Or.inl ((wins_iff c i).mpr (Or.inl (lt_of_le_of_ne hge (Ne.symm h))))
    · rcases Nat.lt_trichotomy i.ts c.ts with hlt | heq | hgt
      · exact Or.inl ((wins_iff c i).mpr (Or.inl hlt))
      · rcases strLt_total c.nodeId i.nodeId h with hn | hn
        · exact Or.inr ((wins_iff i c).mpr (Or.inr ⟨heq, hn⟩))
        · exact Or.inl ((wins_iff c i).mpr (Or.inr ⟨heq.symm, hn⟩))
      · exact Or.inr ((wins_iff i c).mpr (Or.inl hgt))

/-- Witness for C5 at the spec test vectors: ts 5 node b beats ts 5 node a,
and an identical pair is not a win. -/
theorem wins_total_order_witness :
    wins { ts := 5, nodeId := "b", tombstone := false }
        { ts := 5, nodeId := "a", tombstone := false } = true
    ∧ wins { ts := 5, nodeId := "a", tombstone := false }
        { ts := 5, nodeId := "a", tombstone := false } = false := by
  refine ⟨?_, ?_⟩
  · exact (wins_total_order { ts := 5, nodeId := "b", tombstone := false }
      { ts := 5, nodeId := "a", tombstone := false }).2.1 rfl (by decide)
  · exact (wins_total_order { ts := 5, nodeId := "a", tombstone := false }
      { ts := 5, nodeId := "a", tombstone := false }).2.2.1 rfl rfl

/-- C7: get on a tombstoned key returns a present-but-empty entry marked
tombstoned (non-absent, with a null value and isTombstone true), while get
on a key that was never written returns absent. -/
theorem get_tombstone_present_absent_distinct
    (s : KvStream) (bucket key : String) (opts : KvWriteOptions)
    (h : s.msgs.filter (fun m => m.subject == subjectFor bucket key) = []) :
    kvGet (kvDelete s bucket key opts) bucket key
      = some { value := none, isTombstone := true, origin := opts.origin,
               ts := some (opts.timestamp.getD (s.msgs.length + 1)),
               revision := some (s.msgs.length + 1) }
    ∧ kvGet s bucket key = none :=
  ⟨kvGet_kvDelete_self s bucket key opts, kvGet_eq_none_of_never_written s bucket key h⟩

/-- Witness for C7: after deleting key k on an empty bucket, get returns a
present tombstone entry, while get on the untouched bucket returns
absent. -/
theorem get_tombstone_present_absent_distinct_witness :
    kvGet (kvDelete { msgs := [] } "config" "k" { origin := some "A", timestamp := some 3 })
        "config" "k"
      = some { value := none, isTombstone := true, origin := some "A",
               ts := some 3, revision := some 1 }
    ∧ kvGet { msgs := [] } "config" "k" = none :=
  get_tombstone_present_absent_distinct { msgs := [] } "config" "k"
    { origin := some "A", timestamp := some 3 } (by decide)

/-- C9: any failure of the underlying stream lookup is absorbed by get and
turned into the same absent result a never-written key produces; no
storage error reaches the caller of get. -/
theorem get_absorbs_lookup_failures
    (e : String) (s : KvStream) (bucket key : String)
    (h : s.msgs.filter (fun m => m.subject == subjectFor bucket key) = []) :
    getFromLookup (LookupResult.err e) = none
    ∧ kvGet s bucket key = none
    ∧ getFromLookup (LookupResult.err e) = kvGet s bucket key := by
  have h2 := kvGet_eq_none_of_never_written s bucket key h
  exact ⟨rfl, h2, by rw [h2]; rfl⟩

/-- Witness for C9 with a transient storage failure on an empty bucket. -/
theorem get_absorbs_lookup_failures_witness :
    getFromLookup (LookupResult.err "storage unavailable") = none
    ∧ kvGet { msgs := [] } "config" "k" = none
    ∧ getFromLookup (LookupResult.err "storage unavailable")
        = kvGet { msgs := [] } "config" "k" :=
  get_absorbs_lookup_failures "storage unavailable" { msgs := [] } "config" "k" (by decide)

/-- C10: a stored message without a KV-Lamport header is reconstructed
with timestamp equal to its stream sequence number, by the facade get and
by the watcher when it records a provenance-carrying event; and seeding
assigns an entry with an absent timestamp a freshly ticked local clock
value. Both kinds of timestamps land in the Version field that wins
compares. -/
theorem seq_fallback_timestamps
    (m : StoredMsg) (seq : Nat) (ctx : WatcherCtx) (st st2 : AgentState) (key : String)
    (entry : KvEntry)
    (hlam : m.kvLamport = none) (horig : m.kvOrigin.getD "" ≠ "")
    (hts : entry.ts = none) :
    (entryOfMsg seq m).ts = some seq
    ∧ mdGet (handleKvEvent ctx st seq m).1.md ctx.bucket (keyOfSubject ctx.bucket m.subject)
        = some { ts := seq, nodeId := m.kvOrigin.getD "",
                 tombstone := m.kvOperation == some "DEL" }
    ∧ (seedEntry ctx st2 key entry).clock = st2.clock + 1
    ∧ mdGet (seedEntry ctx st2 key entry).md ctx.bucket key
        = some { ts := st2.clock + 1, nodeId := entry.origin.getD "unknown",
                 tombstone := entry.isTombstone } := by
  have hb : (m.kvOrigin.getD "" != "") = true := by simpa [bne_iff_ne] using horig
  refine ⟨?_, ?_, ?_, ?_⟩
  · simp [entryOfMsg, hlam]
  · simp [handleKvEvent, hb, hlam, mdGet_mdSet_self]
  · simp [seedEntry, hts, clockTick, clockObserve]
  · simp [seedEntry, hts, clockTick, clockObserve, mdGet_mdSet_self]

/-- Witness for C10: a message at sequence 5 without a Lamport header is
reconstructed at ts 5, and seeding an entry without a timestamp at clock 3
records ts 4. -/
theorem seq_fallback_timestamps_witness :
    (entryOfMsg 5 { subject := "$KV.config.k", data := "x", kvOrigin := some "A" }).ts = some 5
    ∧ mdGet (handleKvEvent { bucket := "config", nodeId := "N" } { clock := 0, md := [] } 5
          { subject := "$KV.config.k", data := "x", kvOrigin := some "A" }).1.md
        "config" (keyOfSubject "config" "$KV.config.k")
        = some { ts := 5, nodeId := "A", tombstone := false }
    ∧ (seedEntry { bucket := "config", nodeId := "N" } { clock := 3, md := [] } "k"
        { value := some "v", isTombstone := false, origin := none, ts := none,
          revision := some 1 }).clock = 4
    ∧ mdGet (seedEntry { bucket := "config", nodeId := "N" } { clock := 3, md := [] } "k"
        { value := some "v", isTombstone := false, origin := none, ts := none,
          revision := some 1 }).md "config" "k"
        = some { ts := 4, nodeId := "unknown", tombstone := false } := by
  have h := seq_fallback_timestamps
    { subject := "$KV.config.k", data := "x", kvOrigin := some "A" } 5
    { bucket := "config", nodeId := "N" } { clock := 0, md := [] } { clock := 3, md := [] }
    "k" { value := some "v", isTombstone := false, origin := none, ts := none,
          revision := some 1 } rfl (by decide) rfl
  exact h

/-- C4: an event carrying agent provenance only advances the clock by
observation and is never broadcast; an event with no provenance mints one
Operation stamped with clock.tick() and this node id, records its version
in the store, and hands exactly that Operation to the broadcaster. -/
theorem watcher_classification
    (ctx : WatcherCtx) (st : AgentState) (seq : Nat) (m : StoredMsg) :
    (m.kvOrigin.getD "" ≠ "" →
      (handleKvEvent ctx st seq m).2 = none
      ∧ (handleKvEvent ctx st seq m).1.clock = clockObserve st.clock (m.kvLamport.getD seq))
    ∧ (m.kvOrigin.getD "" = "" →
      ∃ op : Operation,
        (handleKvEvent ctx st seq m).2 = some op
        ∧ op.ts = (clockTick st.clock).1
        ∧ op.nodeId = ctx.nodeId
        ∧ (handleKvEvent ctx st seq m).1.clock = (clockTick st.clock).2
        ∧ (handleKvEvent ctx st seq m).1.md
            = mdSet st.md ctx.bucket (keyOfSubject ctx.bucket m.subject)
                (versionFromOp op)) := by
  constructor
  · intro h
    have hb : (m.kvOrigin.getD "" != "") = true := by simpa [bne_iff_ne] using h
    exact ⟨by simp [handleKvEvent, hb], by simp [handleKvEvent, hb]⟩
  · intro h
    have hb : (m.kvOrigin.getD "" != "") = false := by simp [h]
    refine ⟨{ op := if m.kvOperation == some "DEL" then OpType.delete else OpType.put,
              bucket := ctx.bucket, key := keyOfSubject ctx.bucket m.subject,
              value := if m.kvOperation == some "DEL" then none else some m.data,
              ts := (clockTick st.clock).1, nodeId := ctx.nodeId }, ?_, rfl, rfl, ?_, ?_⟩
    · simp [handleKvEvent, hb]
    · simp [handleKvEvent, hb]
    · simp [handleKvEvent, hb]

/-- Witness for C4: a provenance-carrying event is not broadcast, and an
origin-less event is broadcast as a fresh operation of this node. -/
theorem watcher_classification_witness :
    ((handleKvEvent { bucket := "config", nodeId := "N" } { clock := 0, md := [] } 5
        { subject := "$KV.config.k", data := "x", kvOrigin := some "A",
          kvLamport := some 9 }).2 = none
      ∧ (handleKvEvent { bucket := "config", nodeId := "N" } { clock := 0, md := [] } 5
          { subject := "$KV.config.k", data := "x", kvOrigin := some "A",
            kvLamport := some 9 }).1.clock = clockObserve 0 9)
    ∧ ∃ op : Operation,
        (handleKvEvent { bucket := "config", nodeId := "N" } { clock := 0, md := [] } 5
          { subject := "$KV.config.k", data := "x" }).2 = some op
        ∧ op.ts = (clockTick 0).1
        ∧ op.nodeId = "N"
        ∧ (handleKvEvent { bucket := "config", nodeId := "N" } { clock := 0, md := [] } 5
            { subject := "$KV.config.k", data := "x" }).1.clock = (clockTick 0).2
        ∧ (handleKvEvent { bucket := "config", nodeId := "N" } { clock := 0, md := [] } 5
            { subject := "$KV.config.k", data := "x" }).1.md
            = mdSet [] "config" (keyOfSubject "config" "$KV.config.k") (versionFromOp op) := by
  constructor
  · exact (watcher_classification { bucket := "config", nodeId := "N" }
      { clock := 0, md := [] } 5
      { subject := "$KV.config.k", data := "x", kvOrigin := some "A",
        kvLamport := some 9 }).1 (by decide)
  · exact (watcher_classification { bucket := "config", nodeId := "N" }
      { clock := 0, md := [] } 5 { subject := "$KV.config.k", data := "x" }).2 rfl

/-- C3 fails on the code at a concrete input: a provenance-carrying event
whose Version (ts 1, node A) loses to the stored Version (ts 10, node B)
still replaces it in the metadata store. -/
theorem watcher_overwrite_counterexample :
    wins { ts := 1, nodeId := "A", tombstone := false }
        { ts := 10, nodeId := "B", tombstone := false } = false
    ∧ mdGet (handleKvEvent { bucket := "config", nodeId := "N" }
          { clock := 0,
            md := [(("config", "k"), { ts := 10, nodeId := "B", tombstone := false })] }
          5 { subject := "$KV.config.k", data := "x", kvOrigin := some "A",
              kvLamport := some 1 }).1.md
        "config" "k"
      = some { ts := 1, nodeId := "A", tombstone := false } := by decide

/-- C3 amended: on a change event that carries agent provenance the
watcher unconditionally overwrites the stored Version with the event
Version, with no wins comparison against the incumbent, so the store
tracks the most recent KV state rather than the highest-ranked Version
observed. -/
theorem watcher_unconditional_overwrite
    (ctx : WatcherCtx) (st : AgentState) (seq : Nat) (m : StoredMsg)
    (h : m.kvOrigin.getD "" ≠ "") :
    (handleKvEvent ctx st seq m).1.md
      = mdSet st.md ctx.bucket (keyOfSubject ctx.bucket m.subject)
          { ts := m.kvLamport.getD seq, nodeId := m.kvOrigin.getD "",
            tombstone := m.kvOperation == some "DEL" } := by
  have hb : (m.kvOrigin.getD "" != "") = true := by simpa [bne_iff_ne] using h
  simp [handleKvEvent, hb]

/-- Witness for the amended C3 on a concrete provenance-carrying event. -/
theorem watcher_unconditional_overwrite_witness :
    (handleKvEvent { bucket := "config", nodeId := "N" }
        { clock := 0,
          md := [(("config", "k"), { ts := 10, nodeId := "B", tombstone := false })] }
        5 { subject := "$KV.config.k", data := "x", kvOrigin := some "A",
            kvLamport := some 1 }).1.md
      = mdSet [(("config", "k"), { ts := 10, nodeId := "B", tombstone := false })]
          "config" (keyOfSubject "config" "$KV.config.k")
          { ts := 1, nodeId := "A", tombstone := false } :=
  watcher_unconditional_overwrite { bucket := "config", nodeId := "N" }
    { clock := 0,
      md := [(("config", "k"), { ts := 10, nodeId := "B", tombstone := false })] }
    5 { subject := "$KV.config.k", data := "x", kvOrigin := some "A", kvLamport := some 1 }
    (by decide)

/-- C6 fails on the code at a concrete input: a reconciler push is a bare
put with no options, so the copy it writes carries no origin and no
Lamport header; a subsequent get reconstructs origin none and a timestamp
equal to the stream sequence number (1) instead of the stored timestamp
(5), so the Version is not retrievable from provenance. -/
theorem reconcile_push_drops_provenance_counterexample :
    kvGet (reconcileKey { bucket := "config", nodeId := "N" } "k" 7
        (kvPut { msgs := [] } "config" "k" "v" { origin := some "A", timestamp := some 5 })
        { msgs := [] }).2 "config" "k"
      = some { value := some "v", isTombstone := false, origin := none, ts := some 1,
               revision := some 1 } := by decide

/-- C6 amended: the local-write helpers localPut and localDelete, and the
OperationApplier when it applies a winning remote operation, stamp every
facade write with the provenance marker (origin node id, Lamport
timestamp) and the tombstone flag, all retrievable by a subsequent get;
reconciler pushes do not (they are bare puts). This theorem proves the
helper and applier parts. -/
theorem facade_writes_carry_provenance
    (ctx : WatcherCtx) (st st2 : AgentState) (kv kv2 : KvStream) (key value : String)
    (op : Operation) (hwin : opWinsStored st2.md op = true) :
    kvGet (localPut ctx st kv key value).2.1 ctx.bucket key
      = some { value := some value, isTombstone := false, origin := some ctx.nodeId,
               ts := some (clockTick st.clock).1, revision := some (kv.msgs.length + 1) }
    ∧ kvGet (localDelete ctx st kv key).2.1 ctx.bucket key
      = some { value := none, isTombstone := true, origin := some ctx.nodeId,
               ts := some (clockTick st.clock).1, revision := some (kv.msgs.length + 1) }
    ∧ (op.op = OpType.put →
        kvGet (applyRemoteOp st2 kv2 op).2 op.bucket op.key
          = some { value := some (op.value.getD ""), isTombstone := false,
                   origin := some op.nodeId, ts := some op.ts,
                   revision := some (kv2.msgs.length + 1) })
    ∧ (op.op = OpType.delete →
        kvGet (applyRemoteOp st2 kv2 op).2 op.bucket op.key
          = some { value := none, isTombstone := true, origin := some op.nodeId,
                   ts := some op.ts, revision := some (kv2.msgs.length + 1) }) := by
  refine ⟨?_, ?_, ?_, ?_⟩
  · simp [localPut, kvGet_kvPut_self]
  · simp [localDelete, kvGet_kvDelete_self]
  · intro hput
    simp [applyRemoteOp, hwin, hput, kvGet_kvPut_self]
  · intro hdel
    simp [applyRemoteOp, hwin, hdel, kvGet_kvDelete_self]

/-- Witness for the amended C6: a concrete local put, a winning applied
remote put, and a winning applied remote delete each leave an entry whose
get carries origin, timestamp and tombstone status. -/
theorem facade_writes_carry_provenance_witness :
    kvGet (localPut { bucket := "config", nodeId := "N" } { clock := 0, md := [] }
        { msgs := [] } "k" "v").2.1 "config" "k"
      = some { value := some "v", isTombstone := false, origin := some "N",
               ts := some 1, revision := some 1 }
    ∧ kvGet (applyRemoteOp { clock := 0, md := [] } { msgs := [] }
        { op := OpType.put, bucket := "config", key := "k", value := some "w",
          ts := 4, nodeId := "M" }).2 "config" "k"
      = some { value := some "w", isTombstone := false, origin := some "M",
               ts := some 4, revision := some 1 }
    ∧ kvGet (applyRemoteOp { clock := 0, md := [] } { msgs := [] }
        { op := OpType.delete, bucket := "config", key := "k", value := none,
          ts := 5, nodeId := "M" }).2 "config" "k"
      = some { value := none, isTombstone := true, origin := some "M",
               ts := some 5, revision := some 1 } := by
  refine ⟨?_, ?_, ?_⟩
  · exact (facade_writes_carry_provenance { bucket := "config", nodeId := "N" }
      { clock := 0, md := [] } { clock := 0, md := [] } { msgs := [] } { msgs := [] }
      "k" "v" { op := OpType.put, bucket := "config", key := "k", value := some "w",
                ts := 4, nodeId := "M" } (by decide)).1
  · exact (facade_writes_carry_provenance { bucket := "config", nodeId := "N" }
      { clock := 0, md := [] } { clock := 0, md := [] } { msgs := [] } { msgs := [] }
      "k" "v" { op := OpType.put, bucket := "config", key := "k", value := some "w",
                ts := 4, nodeId := "M" } (by decide)).2.2.1 rfl
  · exact (facade_writes_carry_provenance { bucket := "config", nodeId := "N" }
      { clock := 0, md := [] } { clock := 0, md := [] } { msgs := [] } { msgs := [] }
      "k" "v" { op := OpType.delete, bucket := "config", key := "k", value := none,
                ts := 5, nodeId := "M" } (by decide)).2.2.2 rfl

/-- C1 evaluated at the failing input: the local entry stores provenance
(ts 100, node A) and the peer entry (ts 1, node Z); the versions the
reconciler actually compares are both stamped with the fresh
reconciliation-time timestamp 7 and suffixed node ids, not the stored
provenance; and although the peer stored Version does not outrank the
local one, the reconciler overwrites the local side with the peer value. -/
theorem reconcile_fresh_stamp_eval :
    kvGet (kvPut { msgs := [] } "config" "k" "localv"
        { origin := some "A", timestamp := some 100 }) "config" "k"
      = some { value := some "localv", isTombstone := false, origin := some "A",
               ts := some 100, revision := some 1 }
    ∧ kvGet (kvPut { msgs := [] } "config" "k" "peerv"
        { origin := some "Z", timestamp := some 1 }) "config" "k"
      = some { value := some "peerv", isTombstone := false, origin := some "Z",
               ts := some 1, revision := some 1 }
    ∧ comparedVersions { bucket := "config", nodeId := "N" } "k" 7
        { value := some "localv", isTombstone := false, origin := some "A",
          ts := some 100, revision := some 1 }
        { value := some "peerv", isTombstone := false, origin := some "Z",
          ts := some 1, revision := some 1 }
      = ({ ts := 7, nodeId := "N-local", tombstone := false },
         { ts := 7, nodeId := "N-peer", tombstone := false })
    ∧ storedVersionOfEntry
        { value := some "localv", isTombstone := false, origin := some "A",
          ts := some 100, revision := some 1 } "N"
      = { ts := 100, nodeId := "A", tombstone := false }
    ∧ storedVersionOfEntry
        { value := some "peerv", isTombstone := false, origin := some "Z",
          ts := some 1, revision := some 1 } "N"
      = { ts := 1, nodeId := "Z", tombstone := false }
    ∧ wins { ts := 1, nodeId := "Z", tombstone := false }
        { ts := 100, nodeId := "A", tombstone := false } = false
    ∧ kvGet (reconcileKey { bucket := "config", nodeId := "N" } "k" 7
        (kvPut { msgs := [] } "config" "k" "localv"
          { origin := some "A", timestamp := some 100 })
        (kvPut { msgs := [] } "config" "k" "peerv"
          { origin := some "Z", timestamp := some 1 })).1 "config" "k"
      = some { value := some "peerv", isTombstone := false, origin := none,
               ts := some 2, revision := some 2 } := by decide

/-- C2 evaluated at the failing input: the local side holds a winning
tombstone (ts 9, node A) and the peer holds a stale value (ts 1, node B)
whose Version does not outrank it; the reconciliation step nevertheless
writes the stale value to the local side as a plain put, after which get
returns a non-tombstone entry: the tombstone is resurrected and the push
does not preserve tombstone status. -/
theorem reconcile_resurrects_tombstone_eval :
    kvGet (kvDelete { msgs := [] } "config" "k"
        { origin := some "A", timestamp := some 9 }) "config" "k"
      = some { value := none, isTombstone := true, origin := some "A",
               ts := some 9, revision := some 1 }
    ∧ wins { ts := 1, nodeId := "B", tombstone := false }
        { ts := 9, nodeId := "A", tombstone := true } = false
    ∧ kvGet (reconcileKey { bucket := "config", nodeId := "N" } "k" 7
        (kvDelete { msgs := [] } "config" "k" { origin := some "A", timestamp := some 9 })
        (kvPut { msgs := [] } "config" "k" "old"
          { origin := some "B", timestamp := some 1 })).1 "config" "k"
      = some { value := some "old", isTombstone := false, origin := none,
               ts := some 2, revision := some 2 } := by decide

/-- C8 fails on the code at a concrete input: after two timer fires with
no cycle completion in between, two reconciliation cycles are running
concurrently; the claim requires at most one. -/
theorem reconcile_cycles_overlap_counterexample :
    cyclesRunning [SchedulerEvent.timerFire, SchedulerEvent.timerFire] = 2
    ∧ ¬ cyclesRunning [SchedulerEvent.timerFire, SchedulerEvent.timerFire] ≤ 1 := by decide

/-- C8 amended: the interval callback has no overlap guard, so every timer
fire starts a new reconciliation cycle regardless of how many cycles are
still running. -/
theorem timer_fire_always_starts_cycle (events : List SchedulerEvent) :
    cyclesRunning (events ++ [SchedulerEvent.timerFire]) = cyclesRunning events + 1 := by
  simp [cyclesRunning, List.foldl_append, schedStep]

end NatsKvSyncd
